import Mathlib

/-!
Verification development for the tts-to-obsidian-markdown repository.

The Python sources `tts_to_obsidian/enhancement/processor.py` and
`tts_to_obsidian/obsidian/note_generator.py` are shallowly embedded below.
Pure text manipulation is modelled on `List Char` / `String`; the diary
folder of the Obsidian vault is modelled as a map from file names to file
contents; Python exceptions are modelled with `Except String`; the opaque
NLP collaborators (spaCy NER, noun chunking, nltk sentence tokenization,
dateutil fuzzy parsing) are modelled as explicit function parameters, as
the spec treats them as injected opaque capabilities.
-/

namespace TTSObsidian

/-! ### Decimal rendering of naturals, as Python `str(int)` produces it -/

/-- The decimal digit character for `n % 10`. -/
def digitChar : Nat → Char
  | 0 => '0' | 1 => '1' | 2 => '2' | 3 => '3' | 4 => '4'
  | 5 => '5' | 6 => '6' | 7 => '7' | 8 => '8' | _ => '9'

/-- Fuel-driven digit accumulation (structural recursion on the fuel, so that
concrete values compute inside `decide` / `rfl`). -/
def natDigitsF : Nat → Nat → List Char
  | 0, _ => []
  | fuel + 1, n =>
    if n < 10 then [digitChar n]
    else natDigitsF fuel (n / 10) ++ [digitChar (n % 10)]

/-- Decimal digit string of a natural number, matching Python `str(n)` for `n ≥ 0`. -/
def natDigits (n : Nat) : List Char :=
  natDigitsF (n + 1) n

/-- Value accumulated by reading decimal digits left to right. -/
def digitsToNatCore (l : List Char) : Nat :=
  l.foldl (fun a c => a * 10 + (c.toNat - 48)) 0

/-- Whether every character is an ASCII decimal digit. -/
def isDigits (l : List Char) : Bool :=
  l.all (fun c => 48 ≤ c.toNat && c.toNat ≤ 57)

/-- Parse a decimal digit string; `none` when a non-digit appears. -/
def digitsToNat (l : List Char) : Option Nat :=
  if isDigits l ∧ l ≠ [] then some (digitsToNatCore l) else none

/-! ### Splitting a character sequence into lines (for parsing written notes) -/

/-- Split a character list at newline characters.  Always returns at least one
(possibly empty) line; `joinLines` is its inverse. -/
def toLines : List Char → List (List Char)
  | [] => [[]]
  | c :: rest =>
    if c = '\n' then [] :: toLines rest
    else
      match toLines rest with
      | [] => [[c]]
      | l :: ls => (c :: l) :: ls

/-- Rejoin lines with newline characters, inverse of `toLines`. -/
def joinLines : List (List Char) → List Char
  | [] => []
  | [l] => l
  | l :: ls => l ++ '\n' :: joinLines ls

/-!
### Embedding of `tts_to_obsidian/enhancement/processor.py` (`TextEnhancer`)

External NLP collaborators (nltk `sent_tokenize`, spaCy entities and noun
chunks, dateutil `parser.parse`) are opaque injected functions, per the spec.
-/

/-- Whitespace characters matched by Python regex `\s` (ASCII range). -/
def pyIsSpace (c : Char) : Bool :=
  c = ' ' || c = '\t' || c = '\n' || c = '\r' || c = '\x0b' || c = '\x0c'

/-- The punctuation class `[.,!?]` of `_clean_text`. -/
def pyIsPunct (c : Char) : Bool :=
  c = '.' || c = ',' || c = '!' || c = '?'

/-- Python `re.sub(r"\s+", " ", text)`: replace each maximal whitespace run by one space. -/
def collapseWs : List Char → List Char
  | [] => []
  | c :: rest =>
    if pyIsSpace c then ' ' :: collapseWs (rest.dropWhile pyIsSpace)
    else c :: collapseWs rest
termination_by l => l.length
decreasing_by
  all_goals simp only [List.length_cons]
  · exact Nat.lt_succ_of_le ((List.dropWhile_sublist _).length_le)
  · exact Nat.lt_succ_self _

/-- Python `str.strip()`: remove leading and trailing whitespace. -/
def stripChars (l : List Char) : List Char :=
  ((l.dropWhile pyIsSpace).reverse.dropWhile pyIsSpace).reverse

/-- Python `re.sub(r"\s+([.,!?])", r"\1", text)`: drop whitespace runs that directly
precede one of `.,!?`. -/
def fixPunctBefore : List Char → List Char
  | [] => []
  | c :: rest =>
    if pyIsSpace c then
      match _h : rest.dropWhile pyIsSpace with
      | p :: r2 =>
        if pyIsPunct p then p :: fixPunctBefore r2
        else c :: fixPunctBefore rest
      | [] => c :: fixPunctBefore rest
    else c :: fixPunctBefore rest
termination_by l => l.length
decreasing_by
  all_goals simp only [List.length_cons]
  · have hlen := (List.dropWhile_sublist (l := rest) pyIsSpace).length_le
    rw [_h] at hlen
    simp only [List.length_cons] at hlen
    omega
  · exact Nat.lt_succ_self _
  · exact Nat.lt_succ_self _
  · exact Nat.lt_succ_self _

/-- Python `re.sub(r"([.,!?])\s+", r"\1 ", text)`: normalize whitespace runs after
one of `.,!?` to a single space. -/
def fixPunctAfter : List Char → List Char
  | [] => []
  | c :: rest =>
    if pyIsPunct c then
      match rest with
      | w :: r2 =>
        if pyIsSpace w then c :: ' ' :: fixPunctAfter (r2.dropWhile pyIsSpace)
        else c :: fixPunctAfter (w :: r2)
      | [] => [c]
    else c :: fixPunctAfter rest
termination_by l => l.length
decreasing_by
  all_goals simp only [List.length_cons]
  · have hlen := (List.dropWhile_sublist (l := r2) pyIsSpace).length_le
    omega
  · exact Nat.lt_succ_self _
  · exact Nat.lt_succ_self _

/-- The regex normalization prefix of `_clean_text`, before sentence
tokenization: collapse whitespace, strip, fix punctuation spacing. -/
def preCleaned (text : String) : String :=
  ⟨fixPunctAfter (fixPunctBefore (stripChars (collapseWs text.data)))⟩

/-- Python `s[0].upper() + s[1:]`: raises `IndexError` on an empty string. -/
def capSentence (s : String) : Except String String :=
  match s.data with
  | [] => .error ("IndexError: string index out of range")
  | c :: rest => .ok ⟨c.toUpper :: rest⟩

/-- Source `TextEnhancer._clean_text`, with nltk `sent_tokenize` as the opaque
parameter `tok`. -/
def cleanText (tok : String → List String) (text : String) : Except String String := do
  let caps ← (tok (preCleaned text)).mapM capSentence
  return String.intercalate (" ") caps

/-- A spaCy entity: a text span with its label. -/
structure Ent where
  text : String
  label : String
deriving DecidableEq

/-- Source `TextEnhancer._detect_dates`: spaCy entities come in as `ents`, and the
dateutil fuzzy parse is the opaque `parseO` (`none` models `ValueError` /
`TypeError`, which the code catches and skips). `D` is the opaque type of
parsed datetimes. -/
def detectDates {D : Type} (parseO : String → Option D) (ents : List Ent) :
    List (String × D) :=
  ents.filterMap (fun e =>
    if e.label = "DATE" then (parseO e.text).map (fun d => (e.text, d))
    else none)

/-- Python `str.lower()` (ASCII range, which covers the lexicons and stop
words involved): lower-case each character. -/
def pyToLower (s : String) : String :=
  ⟨s.data.map Char.toLower⟩

/-- A spaCy noun chunk: its span text and the texts of its tokens. -/
structure Chunk where
  text : String
  tokenTexts : List String
deriving DecidableEq

/-- Source `TextEnhancer._identify_topics`: noun chunks and entities are opaque
inputs; `stopWords` models `self.stop_words`.  Python's `list(set(topics))`
is modelled by `List.dedup`, which is faithful up to the (unspecified)
iteration order of a Python set. -/
def identifyTopics (stopWords : List String) (chunks : List Chunk) (ents : List Ent) :
    List String :=
  let fromChunks :=
    (chunks.filter (fun c =>
      !(c.tokenTexts.any (fun w => decide (pyToLower w ∈ stopWords))))).map
      (fun c => c.text)
  let fromEnts :=
    (ents.filter (fun e =>
      decide (e.label ∈ (["PERSON", "ORG", "GPE", "EVENT"] : List String)))).map
      (fun e => e.text)
  (fromChunks ++ fromEnts).dedup

/-- The fixed positive lexicon of `_detect_emotion`. -/
def positiveWords : List String := ["happy", "joy", "excited", "great", "wonderful", "love"]

/-- The fixed negative lexicon of `_detect_emotion`. -/
def negativeWords : List String := ["sad", "angry", "upset", "terrible", "hate", "awful"]

/-- Python `str.split()` with no argument: split at whitespace runs, never
producing empty tokens. -/
def wordsOf : List Char → List (List Char)
  | [] => []
  | c :: rest =>
    if pyIsSpace c then wordsOf rest
    else (c :: rest.takeWhile (fun x => !pyIsSpace x)) ::
      wordsOf (rest.dropWhile (fun x => !pyIsSpace x))
termination_by l => l.length
decreasing_by
  all_goals simp only [List.length_cons]
  · exact Nat.lt_succ_self _
  · exact Nat.lt_succ_of_le ((List.dropWhile_sublist _).length_le)

/-- Python `text.split()` on a string. -/
def pySplit (s : String) : List String :=
  (wordsOf s.data).map (fun l => ⟨l⟩)

/-- Emotion score record; scores are exact rationals standing for the Python
floats (the divisions involved are exact in the claims' tolerance). -/
structure Emotion where
  positive : ℚ
  negative : ℚ
  neutral : ℚ
deriving DecidableEq

/-- The list `words = text.lower().split()` in `_detect_emotion`. -/
def emotionTokens (text : String) : List String :=
  pySplit (pyToLower text)

/-- The `positive_count` of `_detect_emotion`. -/
def positiveCount (text : String) : Nat :=
  (emotionTokens text).countP (fun w => decide (w ∈ positiveWords))

/-- The `negative_count` of `_detect_emotion`. -/
def negativeCount (text : String) : Nat :=
  (emotionTokens text).countP (fun w => decide (w ∈ negativeWords))

/-- Source `TextEnhancer._detect_emotion`. -/
def detectEmotion (text : String) : Emotion :=
  if (emotionTokens text).length = 0 then ⟨0, 0, 1⟩
  else
    ⟨(positiveCount text : ℚ) / ((emotionTokens text).length : ℚ),
      (negativeCount text : ℚ) / ((emotionTokens text).length : ℚ),
      (((emotionTokens text).length : ℚ) - (positiveCount text : ℚ) -
        (negativeCount text : ℚ)) / ((emotionTokens text).length : ℚ)⟩

/-- The paragraph-accumulation loop of `TextEnhancer.enhance` (lines 132-141),
returning the groups of sentences that get joined into paragraphs. -/
def buildParagraphs (acc : List String) : List String → List (List String)
  | [] => if acc.isEmpty then [] else [acc]
  | s :: rest =>
    if (acc ++ [s]).length ≥ 3 then (acc ++ [s]) :: buildParagraphs [] rest
    else buildParagraphs (acc ++ [s]) rest

/-- The `paragraphs` list of `enhance`: each group joined with `" ".join`. -/
def paragraphsOf (sentences : List String) : List String :=
  (buildParagraphs [] sentences).map (fun g => String.intercalate (" ") g)

/-!
### Embedding of `tts_to_obsidian/obsidian/note_generator.py` (`ObsidianNoteGenerator`)

The diary folder is a map from file names to file contents (`DiaryFS`).
`create_note` is modelled with `template_path = None`, so the built-in
default template is used, as in the claims.  Python exceptions are
`Except.error`; an error result means nothing was written.
-/

/-- A Python `datetime` date part. -/
structure Date where
  year : Nat
  month : Nat
  day : Nat
deriving DecidableEq

/-- Gregorian leap-year rule used by Python `datetime`. -/
def isLeapYear (y : Nat) : Bool :=
  y % 4 = 0 && (y % 100 ≠ 0 || y % 400 = 0)

/-- Days in a month, as validated by `datetime.replace`. -/
def daysInMonth (y m : Nat) : Nat :=
  if m = 2 then (if isLeapYear y then 29 else 28)
  else if m = 4 ∨ m = 6 ∨ m = 9 ∨ m = 11 then 30
  else 31

/-- A valid calendar date, the invariant `datetime.now()` guarantees. -/
def Date.Valid (d : Date) : Prop :=
  1 ≤ d.month ∧ d.month ≤ 12 ∧ 1 ≤ d.day ∧ d.day ≤ daysInMonth d.year d.month

instance (d : Date) : Decidable d.Valid := by
  unfold Date.Valid
  infer_instance

/-- Python `current_date.replace(day=n)`: keeps year and month, validates the new
day against them, raising `ValueError` when it is out of range.  The argument
is an integer because `current_date.day - i` can be zero or negative. -/
def replaceDay (d : Date) (n : Int) : Except String Date :=
  if 1 ≤ n ∧ n ≤ (daysInMonth d.year d.month : Int) then
    .ok ⟨d.year, d.month, n.toNat⟩
  else
    .error ("ValueError: day is out of range for month")

/-- Zero-padded two-digit decimal field (`%m`, `%d`, `%H`, `%M`). -/
def pad2 (n : Nat) : List Char :=
  if n < 10 then '0' :: natDigits n else natDigits n

/-- Zero-padded four-digit year field (`%Y`). -/
def pad4 (n : Nat) : List Char :=
  if n < 10 then '0' :: '0' :: '0' :: natDigits n
  else if n < 100 then '0' :: '0' :: natDigits n
  else if n < 1000 then '0' :: natDigits n
  else natDigits n

/-- Python `strftime("%Y-%m-%d")`. -/
def formatDate (d : Date) : String :=
  ⟨pad4 d.year ++ '-' :: (pad2 d.month ++ '-' :: pad2 d.day)⟩

/-- Python `strftime("%H:%M")`. -/
def formatTime (h m : Nat) : String :=
  ⟨pad2 h ++ ':' :: pad2 m⟩

/-- A Python `datetime` value, to the precision `create_note` uses. -/
structure DateTime where
  date : Date
  hour : Nat
  minute : Nat

/-- The diary folder: file name to file content. -/
def DiaryFS : Type := String → Option String

/-- The empty diary folder. -/
def emptyFS : DiaryFS := fun _ => none

/-- Writing a file: `open(path, "w")` truncates, so the new content replaces
any previous content at the same name. -/
def fsWrite (fs : DiaryFS) (name content : String) : DiaryFS :=
  fun k => if k = name then some content else fs k

/-- Source `_get_weather` (dummy implementation in the source). -/
def getWeather : String := "Sunny, 72°F"

/-- Source `_get_location` (dummy implementation in the source). -/
def getLocation : String := "Home Office"

/-- The loop body of `_get_related_entries` over the index list `[1..7]`:
`check_date = current_date.replace(day=current_date.day - i)`, then an
existence check of `<date>.md` in the diary folder. -/
def relatedScan (fs : DiaryFS) (d : Date) : List Nat → Except String (List String)
  | [] => .ok []
  | i :: rest =>
    match replaceDay d ((d.day : Int) - (i : Int)) with
    | .error e => .error e
    | .ok cd =>
      match relatedScan fs d rest with
      | .error e => .error e
      | .ok tail =>
        if (fs (formatDate cd ++ ".md")).isSome then
          .ok (("- [[" ++ formatDate cd ++ "]]") :: tail)
        else
          .ok tail

/-- Source `ObsidianNoteGenerator._get_related_entries`. -/
def getRelatedEntries (fs : DiaryFS) (d : Date) : Except String String :=
  (relatedScan fs d [1, 2, 3, 4, 5, 6, 7]).map
    (fun ls => if ls.isEmpty then "No recent entries" else String.intercalate ("\n") ls)

/-- Source `ObsidianNoteGenerator._copy_audio_file` for a present recording path:
the new name is `diary_<epoch millis><suffix>`; `copyOk` tells whether the
`shutil.copy2` call succeeds, and on failure the I/O error propagates. -/
def copyAudioFile (suffix : String) (epochMillis : Nat) (copyOk : Bool) :
    Except String String :=
  if copyOk then
    .ok ("![[diary_" ++ (⟨natDigits epochMillis⟩ : String) ++ suffix ++ "]]")
  else
    .error ("IOError: audio copy failed")

/-- The keys of `enhanced_transcription` that `create_note` reads via
`dict.get`; a `none` field models an absent key. -/
structure Entry where
  duration : Option String
  mood : Option String
  topics : Option (List String)
  word_count : Option Nat
  text : Option String
deriving DecidableEq

/-- The built-in default template of `create_note` (source lines 118-138),
after `template.format` substitution of the named fields. -/
def defaultNote (date time duration mood topics wordCount weather location
    content relatedEntries audioLink : String) : String :=
  "\n# Diary Entry - " ++ date ++
  "\n\n## Metadata\n- Time: " ++ time ++
  "\n- Duration: " ++ duration ++
  "\n- Mood: " ++ mood ++
  "\n- Topics: " ++ topics ++
  "\n- Word Count: " ++ wordCount ++
  "\n- Weather: " ++ weather ++
  "\n- Location: " ++ location ++
  "\n\n## Content\n" ++ content ++
  "\n\n## Related Entries\n" ++ relatedEntries ++
  "\n\n## Audio Recording\n" ++ audioLink ++ "\n"

/-- The note body rendered by `create_note` for entry `e`, given the
already-computed related-entries block and audio link. -/
def renderedNote (now : DateTime) (e : Entry) (related audioLink : String) : String :=
  defaultNote (formatDate now.date) (formatTime now.hour now.minute)
    (e.duration.getD ("Unknown")) (e.mood.getD ("Neutral"))
    (String.intercalate (", ") (e.topics.getD []))
    (⟨natDigits (e.word_count.getD 0)⟩ : String) getWeather getLocation
    (e.text.getD ("")) related audioLink

/-- Source `ObsidianNoteGenerator.create_note` with `template_path = None`.  Returns
the updated diary folder and the created note's file name; `Except.error`
models an uncaught Python exception, in which case nothing is written. -/
def create_note (fs : DiaryFS) (now : DateTime) (e : Entry)
    (recording : Option String) (copyOk : Bool) (epochMillis : Nat) :
    Except String (DiaryFS × String) :=
  match getRelatedEntries fs now.date with
  | .error e1 => .error e1
  | .ok related =>
    match (match recording with
      | some suffix => copyAudioFile suffix epochMillis copyOk
      | none => Except.ok ("No audio recording")) with
    | .error e2 => .error e2
    | .ok audioLink =>
      .ok (fsWrite fs (formatDate now.date ++ ".md") (renderedNote now e related audioLink),
        formatDate now.date ++ ".md")

/-- The content of the file `create_note` (with no recording) reports having
written, when it succeeds. -/
def writtenNote (fs : DiaryFS) (now : DateTime) (e : Entry) : Option String :=
  match create_note fs now e none true 0 with
  | .ok r => r.1 r.2
  | .error _ => none

/-!
### Parsing a written note back (spec §8 round-trip property)

The repository has no parser for written notes; the spec's round-trip
property implies one, reading the fixed section structure of the default
template (spec §6: Metadata / Content / Related Entries / Audio Recording).
-/

/-- Modelled from the spec: the repository has no note parser; the spec's
round-trip property (§8) reads a metadata field back from the first line
that carries the field's label prefix in the fixed default-template layout. -/
def fieldFromLines (marker : List Char) (ls : List (List Char)) : Option (List Char) :=
  ls.findSome? (fun l =>
    if marker.isPrefixOf l then some (l.drop marker.length) else none)

/-- Modelled from the spec: field lookup on the lines of a written note (the
source has no note parser; this realizes the spec's §8 round-trip reading). -/
def parseFieldLine (marker s : List Char) : Option (List Char) :=
  fieldFromLines marker (toLines s)

/-- Modelled from the spec: recover the comma-joined `topics` string from the
`- Topics: ` metadata line of a written note (no such parser exists in the
source). -/
def parseTopicsField (note : String) : Option (List Char) :=
  parseFieldLine (("- Topics: ").data) note.data

/-- Modelled from the spec: recover the `word_count` field from the
`- Word Count: ` metadata line of a written note (no such parser exists in
the source). -/
def parseWordCountField (note : String) : Option Nat :=
  (parseFieldLine (("- Word Count: ").data) note.data).bind digitsToNat

/-- Modelled from the spec: recover the literal `content` field of a written
note as the lines strictly between the `## Content` header and the
`## Related Entries` header, dropping the template's separating blank line
(no such parser exists in the source). -/
def parseContentField (note : String) : List Char :=
  joinLines
    ((((toLines note.data).dropWhile (fun l => l ≠ ("## Content").data)).tail.takeWhile
      (fun l => l ≠ ("## Related Entries").data)).dropLast)

/-! ### Concrete fixtures used by counterexamples and witnesses -/

/-- A diary folder holding exactly the note of 2024-02-27. -/
def fsFeb : DiaryFS := fun k => if k = "2024-02-27.md" then some ("- a February note") else none

/-- The datetime 2024-03-15, 12:30 — a date in mid-month, away from the boundary. -/
def dtMar15 : DateTime := ⟨⟨2024, 3, 15⟩, 12, 30⟩

/-- The datetime 2024-03-01, 09:00 — the first day of a month. -/
def dtMar1 : DateTime := ⟨⟨2024, 3, 1⟩, 9, 0⟩

/-- An entry record with every key missing. -/
def emptyEntry : Entry := ⟨none, none, none, none, none⟩

/-- An entry whose content contains a `## Related Entries` line of its own. -/
def entryWithMarkerContent : Entry :=
  ⟨none, none, some [], some 0, some ("x\n## Related Entries\ny")⟩

/-- An entry whose content is the text `first`. -/
def entryFirst : Entry := ⟨none, none, none, none, some ("first")⟩

/-- An entry whose content is the text `second`. -/
def entrySecond : Entry := ⟨none, none, none, none, some ("second")⟩

/-- An entry with explicit topics, word count and content, as produced by the
enrichment pipeline. -/
def entryW : Entry := ⟨none, none, some ["alpha", "beta"], some 7, some ("Hello world.")⟩

/-! ### Theorems -/

theorem natDigitsF_fuel_irrel (f1 : Nat) : ∀ f2 n : Nat, n < f1 → n < f2 →
    natDigitsF f1 n = natDigitsF f2 n := by
  induction f1 with
  | zero => omega
  | succ f1' ih =>
    intro f2 n h1 h2
    cases f2 with
    | zero => omega
    | succ f2' =>
      show (if n < 10 then [digitChar n]
          else natDigitsF f1' (n / 10) ++ [digitChar (n % 10)]) =
        (if n < 10 then [digitChar n]
          else natDigitsF f2' (n / 10) ++ [digitChar (n % 10)])
      split
      · rfl
      · next hge =>
        rw [ih f2' (n / 10) (by omega) (by omega)]

/-- The recurrence satisfied by `natDigits`, matching Python's decimal
rendering. -/
theorem natDigits_eq (n : Nat) :
    natDigits n = if n < 10 then [digitChar n]
      else natDigits (n / 10) ++ [digitChar (n % 10)] := by
  show natDigitsF (n + 1) n = _
  show (if n < 10 then [digitChar n]
      else natDigitsF n (n / 10) ++ [digitChar (n % 10)]) = _
  split
  · rfl
  · next hge =>
    rw [natDigitsF_fuel_irrel n (n / 10 + 1) (n / 10) (by omega) (by omega)]
    rfl

theorem digitChar_toNat (d : Nat) (h : d < 10) : (digitChar d).toNat = 48 + d := by
  interval_cases d <;> rfl

theorem digitChar_isDigit (d : Nat) (h : d < 10) :
    48 ≤ (digitChar d).toNat ∧ (digitChar d).toNat ≤ 57 := by
  rw [digitChar_toNat d h]; omega

theorem natDigits_ne_nil (n : Nat) : natDigits n ≠ [] := by
  rw [natDigits_eq]
  split
  · simp
  · simp

theorem natDigits_isDigits (n : Nat) :
    ∀ c ∈ natDigits n, 48 ≤ c.toNat ∧ c.toNat ≤ 57 := by
  induction n using Nat.strong_induction_on with
  | _ n ih =>
    rw [natDigits_eq]
    split
    · intro c hc
      simp only [List.mem_singleton] at hc
      subst hc
      exact digitChar_isDigit n (by omega)
    · intro c hc
      rcases List.mem_append.mp hc with h | h
      · exact ih (n / 10) (Nat.div_lt_self (by omega) (by omega)) c h
      · simp only [List.mem_singleton] at h
        subst h
        exact digitChar_isDigit (n % 10) (Nat.mod_lt _ (by omega))

theorem newline_not_mem_natDigits (n : Nat) : '\n' ∉ natDigits n := by
  intro h
  have := natDigits_isDigits n _ h
  have h10 : ('\n').toNat = 10 := by decide
  omega

/-- Fold of the decimal-reading step over an arbitrary list, from accumulator `a`. -/
theorem digitsCore_go (a : Nat) (l : List Char) :
    l.foldl (fun a c => a * 10 + (c.toNat - 48)) a =
      a * 10 ^ l.length + digitsToNatCore l := by
  induction l generalizing a with
  | nil => simp [digitsToNatCore]
  | cons c t ih =>
    simp only [List.foldl_cons, digitsToNatCore, List.length_cons]
    rw [ih, ih (0 * 10 + (c.toNat - 48))]
    ring

theorem digitsToNatCore_append (l₁ l₂ : List Char) :
    digitsToNatCore (l₁ ++ l₂) =
      digitsToNatCore l₁ * 10 ^ l₂.length + digitsToNatCore l₂ := by
  simp only [digitsToNatCore, List.foldl_append]
  exact digitsCore_go _ _

theorem digitsToNatCore_natDigits (n : Nat) : digitsToNatCore (natDigits n) = n := by
  induction n using Nat.strong_induction_on with
  | _ n ih =>
    rw [natDigits_eq]
    split
    · next h =>
      simp [digitsToNatCore, digitChar_toNat n h]
    · next h =>
      rw [digitsToNatCore_append]
      rw [ih (n / 10) (Nat.div_lt_self (by omega) (by omega))]
      simp [digitsToNatCore, digitChar_toNat (n % 10) (Nat.mod_lt _ (by omega))]
      omega

theorem digitsToNat_natDigits (n : Nat) : digitsToNat (natDigits n) = some n := by
  have h1 : isDigits (natDigits n) = true := by
    simp only [isDigits, List.all_eq_true]
    intro c hc
    have := natDigits_isDigits n c hc
    simp [this.1, this.2]
  simp [digitsToNat, h1, natDigits_ne_nil, digitsToNatCore_natDigits]

theorem toLines_ne_nil (s : List Char) : toLines s ≠ [] := by
  cases s with
  | nil => simp [toLines]
  | cons c rest =>
    simp only [toLines]
    split
    · simp
    · split <;> simp

theorem toLines_newline (s : List Char) : toLines ('\n' :: s) = [] :: toLines s := by
  simp [toLines]

theorem toLines_cons_of_ne (c : Char) (s : List Char) (l : List Char) (ls : List (List Char))
    (hc : c ≠ '\n') (hs : toLines s = l :: ls) : toLines (c :: s) = (c :: l) :: ls := by
  simp [toLines, hc, hs]

theorem toLines_append_newline (a b : List Char) :
    toLines (a ++ '\n' :: b) = toLines a ++ toLines b := by
  induction a with
  | nil => simp [toLines]
  | cons c t ih =>
    by_cases hc : c = '\n'
    · subst hc
      rw [List.cons_append, toLines_newline, toLines_newline, ih, List.cons_append]
    · rcases h : toLines t with _ | ⟨l, ls⟩
      · exact absurd h (toLines_ne_nil t)
      · have hs : toLines (t ++ '\n' :: b) = l :: (ls ++ toLines b) := by
          rw [ih, h, List.cons_append]
        rw [List.cons_append, toLines_cons_of_ne c (t ++ '\n' :: b) l (ls ++ toLines b) hc hs,
          toLines_cons_of_ne c t l ls hc h, List.cons_append]

theorem toLines_of_no_newline (t : List Char) (h : '\n' ∉ t) : toLines t = [t] := by
  induction t with
  | nil => rfl
  | cons c r ih =>
    have hc : c ≠ '\n' := by
      intro hEq; exact h (by simp [hEq])
    have hr : '\n' ∉ r := fun hm => h (List.mem_cons_of_mem _ hm)
    exact toLines_cons_of_ne c r r [] hc (ih hr)

theorem toLines_append_of_no_newline (t s : List Char) (l : List Char) (ls : List (List Char))
    (h : '\n' ∉ t) (hs : toLines s = l :: ls) : toLines (t ++ s) = (t ++ l) :: ls := by
  induction t with
  | nil => simpa using hs
  | cons c r ih =>
    have hc : c ≠ '\n' := by
      intro hEq; exact h (by simp [hEq])
    have hr : '\n' ∉ r := fun hm => h (List.mem_cons_of_mem _ hm)
    rw [List.cons_append, toLines_cons_of_ne c (r ++ s) (r ++ l) ls hc (ih hr),
      List.cons_append]

theorem joinLines_toLines (s : List Char) : joinLines (toLines s) = s := by
  induction s with
  | nil => rfl
  | cons c r ih =>
    by_cases hc : c = '\n'
    · subst hc
      rw [toLines_newline]
      rcases h : toLines r with _ | ⟨l, ls⟩
      · exact absurd h (toLines_ne_nil r)
      · rw [h] at ih
        simp [joinLines, ih]
    · rcases h : toLines r with _ | ⟨l, ls⟩
      · exact absurd h (toLines_ne_nil r)
      · rw [toLines_cons_of_ne c r l ls hc h]
        rw [h] at ih
        cases ls with
        | nil => simpa [joinLines] using congrArg (c :: ·) ih
        | cons l2 ls2 => simpa [joinLines] using congrArg (c :: ·) ih

/-! ### Helpers for prefix disagreement -/

theorem take_of_prefix (m s : List Char) (k : Nat) (hk : k ≤ m.length) (h : m <+: s) :
    s.take k = m.take k := by
  rcases h with ⟨r, rfl⟩
  rw [List.take_append_eq_append_take]
  have : k - m.length = 0 := by omega
  simp [this]

theorem not_isPrefixOf_append (m t f : List Char) (k : Nat)
    (hk₁ : k ≤ t.length) (hk₂ : k ≤ m.length) (h : m.take k ≠ t.take k) :
    m.isPrefixOf (t ++ f) = false := by
  rw [Bool.eq_false_iff]
  intro hpre
  have hp : m <+: t ++ f := List.isPrefixOf_iff_prefix.mp hpre
  have h1 : (t ++ f).take k = m.take k := take_of_prefix m (t ++ f) k hk₂ hp
  have h2 : (t ++ f).take k = t.take k := by
    rw [List.take_append_eq_append_take]
    have : k - t.length = 0 := by omega
    simp [this]
  exact h (h1 ▸ h2)

theorem append_ne_of_take_ne (t f u : List Char) (k : Nat)
    (hk₁ : k ≤ t.length) (h : t.take k ≠ u.take k) :
    t ++ f ≠ u := by
  intro hEq
  have h1 : (t ++ f).take k = t.take k := by
    rw [List.take_append_eq_append_take]
    have : k - t.length = 0 := by omega
    simp [this]
  exact h (by rw [← h1, hEq])

theorem isPrefixOf_append_self (m f : List Char) : m.isPrefixOf (m ++ f) = true :=
  List.isPrefixOf_iff_prefix.mpr ⟨f, rfl⟩

/-! ### takeWhile / dropWhile over appends -/

theorem takeWhile_append_of_all {α : Type} (p : α → Bool) (xs ys : List α)
    (h : ∀ x ∈ xs, p x = true) :
    (xs ++ ys).takeWhile p = xs ++ ys.takeWhile p := by
  induction xs with
  | nil => simp
  | cons a t ih =>
    have ha : p a = true := h a (by simp)
    simp only [List.cons_append, List.takeWhile_cons, ha, if_true]
    rw [ih (fun x hx => h x (by simp [hx]))]

theorem dropWhile_append_of_all {α : Type} (p : α → Bool) (xs ys : List α)
    (h : ∀ x ∈ xs, p x = true) :
    (xs ++ ys).dropWhile p = ys.dropWhile p := by
  induction xs with
  | nil => simp
  | cons a t ih =>
    have ha : p a = true := h a (by simp)
    simp only [List.cons_append, List.dropWhile_cons, ha, if_true]
    exact ih (fun x hx => h x (by simp [hx]))

theorem dropWhile_cons_of_neg {α : Type} (p : α → Bool) (a : α) (l : List α)
    (h : p a = false) : (a :: l).dropWhile p = a :: l := by
  simp [List.dropWhile_cons, h]

theorem mem_toLines_no_newline (s : List Char) : ∀ l ∈ toLines s, '\n' ∉ l := by
  induction s with
  | nil =>
    intro l hl
    simp only [toLines, List.mem_singleton] at hl
    simp [hl]
  | cons c r ih =>
    by_cases hc : c = '\n'
    · subst hc
      rw [toLines_newline]
      intro l hl
      rcases List.mem_cons.mp hl with h | h
      · simp [h]
      · exact ih l h
    · rcases h : toLines r with _ | ⟨l0, ls⟩
      · exact absurd h (toLines_ne_nil r)
      · rw [toLines_cons_of_ne c r l0 ls hc h]
        intro l hl
        rcases List.mem_cons.mp hl with h1 | h1
        · subst h1
          intro hm
          rcases List.mem_cons.mp hm with h2 | h2
          · exact hc h2.symm
          · exact ih l0 (h ▸ List.mem_cons_self _ _) h2
        · exact ih l (h ▸ List.mem_cons_of_mem _ h1)

theorem toLines_joinLines (ls : List (List Char)) (hne : ls ≠ [])
    (h : ∀ l ∈ ls, '\n' ∉ l) : toLines (joinLines ls) = ls := by
  induction ls with
  | nil => exact absurd rfl hne
  | cons l rest ih =>
    cases rest with
    | nil =>
      show toLines (joinLines [l]) = [l]
      simp only [joinLines]
      exact toLines_of_no_newline l (h l (List.mem_cons_self _ _))
    | cons l2 ls2 =>
      show toLines (l ++ '\n' :: joinLines (l2 :: ls2)) = l :: l2 :: ls2
      rw [toLines_append_newline, toLines_of_no_newline l (h l (List.mem_cons_self _ _)),
        ih (by simp) (fun x hx => h x (List.mem_cons_of_mem _ hx))]
      rfl

theorem joinLines_append (A B : List (List Char)) (hA : A ≠ []) (hB : B ≠ []) :
    joinLines (A ++ B) = joinLines A ++ '\n' :: joinLines B := by
  induction A with
  | nil => exact absurd rfl hA
  | cons l rest ih =>
    cases rest with
    | nil =>
      cases B with
      | nil => exact absurd rfl hB
      | cons b bs => simp [joinLines]
    | cons l2 ls2 =>
      calc joinLines ((l :: l2 :: ls2) ++ B)
          = l ++ '\n' :: joinLines ((l2 :: ls2) ++ B) := rfl
        _ = l ++ '\n' :: (joinLines (l2 :: ls2) ++ '\n' :: joinLines B) := by
              rw [ih (by simp)]
        _ = (l ++ '\n' :: joinLines (l2 :: ls2)) ++ '\n' :: joinLines B := by
              simp

theorem no_newline_append (t f : List Char) (ht : '\n' ∉ t) (hf : '\n' ∉ f) :
    '\n' ∉ t ++ f := by
  intro hm
  rcases List.mem_append.mp hm with h | h
  · exact ht h
  · exact hf h

set_option maxHeartbeats 1000000 in
set_option maxRecDepth 4000 in
/-- The line structure of a rendered default-template note, for newline-free
metadata fields.  The `content`, `relatedEntries` and `audioLink` blocks may
span several lines. -/
theorem toLines_defaultNote (date time dur mood tops wc wea loc content rel aud : String)
    (hdate : '\n' ∉ date.data) (htime : '\n' ∉ time.data) (hdur : '\n' ∉ dur.data)
    (hmood : '\n' ∉ mood.data) (htops : '\n' ∉ tops.data) (hwc : '\n' ∉ wc.data)
    (hwea : '\n' ∉ wea.data) (hloc : '\n' ∉ loc.data) :
    toLines (defaultNote date time dur mood tops wc wea loc content rel aud).data =
      [] :: (("# Diary Entry - ").data ++ date.data) :: [] :: ("## Metadata").data ::
      (("- Time: ").data ++ time.data) :: (("- Duration: ").data ++ dur.data) ::
      (("- Mood: ").data ++ mood.data) :: (("- Topics: ").data ++ tops.data) ::
      (("- Word Count: ").data ++ wc.data) :: (("- Weather: ").data ++ wea.data) ::
      (("- Location: ").data ++ loc.data) :: [] :: ("## Content").data ::
      (toLines content.data ++ [] :: ("## Related Entries").data ::
      (toLines rel.data ++ [] :: ("## Audio Recording").data ::
      (toLines aud.data ++ [[]]))) := by
  have hL : (defaultNote date time dur mood tops wc wea loc content rel aud).data =
      joinLines ([[], ("# Diary Entry - ").data ++ date.data, [], ("## Metadata").data,
       ("- Time: ").data ++ time.data, ("- Duration: ").data ++ dur.data,
       ("- Mood: ").data ++ mood.data, ("- Topics: ").data ++ tops.data,
       ("- Word Count: ").data ++ wc.data, ("- Weather: ").data ++ wea.data,
       ("- Location: ").data ++ loc.data, [], ("## Content").data] ++
      (toLines content.data ++ ([[], ("## Related Entries").data] ++
      (toLines rel.data ++ ([[], ("## Audio Recording").data] ++
      (toLines aud.data ++ [[]])))))) := by
    have e1 : ("\n# Diary Entry - ").data = '\n' :: ("# Diary Entry - ").data := rfl
    have e2 : ("\n\n## Metadata\n- Time: ").data =
        '\n' :: '\n' :: (("## Metadata").data ++ '\n' :: ("- Time: ").data) := rfl
    have e3 : ("\n- Duration: ").data = '\n' :: ("- Duration: ").data := rfl
    have e4 : ("\n- Mood: ").data = '\n' :: ("- Mood: ").data := rfl
    have e5 : ("\n- Topics: ").data = '\n' :: ("- Topics: ").data := rfl
    have e6 : ("\n- Word Count: ").data = '\n' :: ("- Word Count: ").data := rfl
    have e7 : ("\n- Weather: ").data = '\n' :: ("- Weather: ").data := rfl
    have e8 : ("\n- Location: ").data = '\n' :: ("- Location: ").data := rfl
    have e9 : ("\n\n## Content\n").data =
        '\n' :: '\n' :: (("## Content").data ++ ['\n']) := rfl
    have e10 : ("\n\n## Related Entries\n").data =
        '\n' :: '\n' :: (("## Related Entries").data ++ ['\n']) := rfl
    have e11 : ("\n\n## Audio Recording\n").data =
        '\n' :: '\n' :: (("## Audio Recording").data ++ ['\n']) := rfl
    have e12 : ("\n").data = ['\n'] := rfl
    rw [joinLines_append _ _ (by simp) (by simp),
      joinLines_append _ _ (toLines_ne_nil _) (by simp),
      joinLines_append _ _ (by simp) (by simp),
      joinLines_append _ _ (toLines_ne_nil _) (by simp),
      joinLines_append _ _ (by simp) (by simp),
      joinLines_append _ _ (toLines_ne_nil _) (by simp),
      joinLines_toLines content.data, joinLines_toLines rel.data,
      joinLines_toLines aud.data]
    simp only [defaultNote, String.data_append, e1, e2, e3, e4, e5, e6, e7, e8, e9,
      e10, e11, e12, joinLines, List.cons_append, List.nil_append,
      List.singleton_append, List.append_assoc]
  rw [hL]
  apply toLines_joinLines
  · simp
  · intro l hl
    rcases List.mem_append.mp hl with h13 | hrest
    · fin_cases h13
      · decide
      · exact no_newline_append _ _ (by decide) hdate
      · decide
      · decide
      · exact no_newline_append _ _ (by decide) htime
      · exact no_newline_append _ _ (by decide) hdur
      · exact no_newline_append _ _ (by decide) hmood
      · exact no_newline_append _ _ (by decide) htops
      · exact no_newline_append _ _ (by decide) hwc
      · exact no_newline_append _ _ (by decide) hwea
      · exact no_newline_append _ _ (by decide) hloc
      · decide
      · decide
    · rcases List.mem_append.mp hrest with hc | hrest2
      · exact mem_toLines_no_newline content.data l hc
      · rcases List.mem_append.mp hrest2 with h2 | hrest3
        · fin_cases h2 <;> decide
        · rcases List.mem_append.mp hrest3 with hr | hrest4
          · exact mem_toLines_no_newline rel.data l hr
          · rcases List.mem_append.mp hrest4 with h3 | hrest5
            · fin_cases h3 <;> decide
            · rcases List.mem_append.mp hrest5 with ha | h4
              · exact mem_toLines_no_newline aud.data l ha
              · fin_cases h4
                decide

theorem fieldFromLines_cons_neg (marker l : List Char) (ls : List (List Char))
    (h : marker.isPrefixOf l = false) :
    fieldFromLines marker (l :: ls) = fieldFromLines marker ls := by
  unfold fieldFromLines
  rw [List.findSome?_cons]
  have hb : (if marker.isPrefixOf l then some (l.drop marker.length) else none) = none := by
    rw [h]
    rfl
  rw [hb]

theorem fieldFromLines_cons_pos (marker l : List Char) (ls : List (List Char))
    (h : marker.isPrefixOf l = true) :
    fieldFromLines marker (l :: ls) = some (l.drop marker.length) := by
  unfold fieldFromLines
  rw [List.findSome?_cons]
  have hb : (if marker.isPrefixOf l then some (l.drop marker.length) else none) =
      some (l.drop marker.length) := by
    rw [h]
    rfl
  rw [hb]

/-- A successful topics-field parse of a rendered default-template note. -/
theorem parseTopicsField_defaultNote (date time dur mood tops wc wea loc content rel aud : String)
    (hdate : '\n' ∉ date.data) (htime : '\n' ∉ time.data) (hdur : '\n' ∉ dur.data)
    (hmood : '\n' ∉ mood.data) (htops : '\n' ∉ tops.data) (hwc : '\n' ∉ wc.data)
    (hwea : '\n' ∉ wea.data) (hloc : '\n' ∉ loc.data) :
    parseTopicsField (defaultNote date time dur mood tops wc wea loc content rel aud) =
      some tops.data := by
  rw [parseTopicsField, parseFieldLine,
    toLines_defaultNote date time dur mood tops wc wea loc content rel aud
      hdate htime hdur hmood htops hwc hwea hloc]
  rw [fieldFromLines_cons_neg _ _ _ (by decide),
    fieldFromLines_cons_neg _ _ _
      (not_isPrefixOf_append (("- Topics: ").data) (("# Diary Entry - ").data) date.data 2
        (by decide) (by decide) (by decide)),
    fieldFromLines_cons_neg _ _ _ (by decide),
    fieldFromLines_cons_neg _ _ _ (by decide),
    fieldFromLines_cons_neg _ _ _
      (not_isPrefixOf_append (("- Topics: ").data) (("- Time: ").data) time.data 4
        (by decide) (by decide) (by decide)),
    fieldFromLines_cons_neg _ _ _
      (not_isPrefixOf_append (("- Topics: ").data) (("- Duration: ").data) dur.data 3
        (by decide) (by decide) (by decide)),
    fieldFromLines_cons_neg _ _ _
      (not_isPrefixOf_append (("- Topics: ").data) (("- Mood: ").data) mood.data 3
        (by decide) (by decide) (by decide)),
    fieldFromLines_cons_pos _ _ _ (isPrefixOf_append_self _ _),
    List.drop_left]

/-- A successful word-count parse of a rendered default-template note. -/
theorem parseWordCountField_defaultNote (date time dur mood tops wea loc content rel aud : String)
    (n : Nat)
    (hdate : '\n' ∉ date.data) (htime : '\n' ∉ time.data) (hdur : '\n' ∉ dur.data)
    (hmood : '\n' ∉ mood.data) (htops : '\n' ∉ tops.data)
    (hwea : '\n' ∉ wea.data) (hloc : '\n' ∉ loc.data) :
    parseWordCountField
      (defaultNote date time dur mood tops (⟨natDigits n⟩ : String) wea loc content rel aud) =
      some n := by
  rw [parseWordCountField, parseFieldLine,
    toLines_defaultNote date time dur mood tops (⟨natDigits n⟩ : String) wea loc content rel aud
      hdate htime hdur hmood htops (newline_not_mem_natDigits n) hwea hloc]
  rw [fieldFromLines_cons_neg _ _ _ (by decide),
    fieldFromLines_cons_neg _ _ _
      (not_isPrefixOf_append (("- Word Count: ").data) (("# Diary Entry - ").data) date.data 2
        (by decide) (by decide) (by decide)),
    fieldFromLines_cons_neg _ _ _ (by decide),
    fieldFromLines_cons_neg _ _ _ (by decide),
    fieldFromLines_cons_neg _ _ _
      (not_isPrefixOf_append (("- Word Count: ").data) (("- Time: ").data) time.data 4
        (by decide) (by decide) (by decide)),
    fieldFromLines_cons_neg _ _ _
      (not_isPrefixOf_append (("- Word Count: ").data) (("- Duration: ").data) dur.data 4
        (by decide) (by decide) (by decide)),
    fieldFromLines_cons_neg _ _ _
      (not_isPrefixOf_append (("- Word Count: ").data) (("- Mood: ").data) mood.data 3
        (by decide) (by decide) (by decide)),
    fieldFromLines_cons_neg _ _ _
      (not_isPrefixOf_append (("- Word Count: ").data) (("- Topics: ").data) tops.data 4
        (by decide) (by decide) (by decide)),
    fieldFromLines_cons_pos _ _ _ (isPrefixOf_append_self _ _),
    List.drop_left]
  simp [digitsToNat_natDigits]

/-- A successful content parse of a rendered default-template note, when the
content has no `## Related Entries` line of its own. -/
theorem parseContentField_defaultNote (date time dur mood tops wc wea loc content rel aud : String)
    (hdate : '\n' ∉ date.data) (htime : '\n' ∉ time.data) (hdur : '\n' ∉ dur.data)
    (hmood : '\n' ∉ mood.data) (htops : '\n' ∉ tops.data) (hwc : '\n' ∉ wc.data)
    (hwea : '\n' ∉ wea.data) (hloc : '\n' ∉ loc.data)
    (hcontent : ("## Related Entries").data ∉ toLines content.data) :
    parseContentField (defaultNote date time dur mood tops wc wea loc content rel aud) =
      content.data := by
  rw [parseContentField]
  rw [toLines_defaultNote date time dur mood tops wc wea loc content rel aud
    hdate htime hdur hmood htops hwc hwea hloc]
  rw [List.dropWhile_cons, if_pos (by decide),
    List.dropWhile_cons,
    if_pos (by
      simp only [decide_eq_true_eq]
      exact append_ne_of_take_ne (("# Diary Entry - ").data) date.data
        (("## Content").data) 2 (by decide) (by decide)),
    List.dropWhile_cons, if_pos (by decide),
    List.dropWhile_cons, if_pos (by decide),
    List.dropWhile_cons,
    if_pos (by
      simp only [decide_eq_true_eq]
      exact append_ne_of_take_ne (("- Time: ").data) time.data
        (("## Content").data) 1 (by decide) (by decide)),
    List.dropWhile_cons,
    if_pos (by
      simp only [decide_eq_true_eq]
      exact append_ne_of_take_ne (("- Duration: ").data) dur.data
        (("## Content").data) 1 (by decide) (by decide)),
    List.dropWhile_cons,
    if_pos (by
      simp only [decide_eq_true_eq]
      exact append_ne_of_take_ne (("- Mood: ").data) mood.data
        (("## Content").data) 1 (by decide) (by decide)),
    List.dropWhile_cons,
    if_pos (by
      simp only [decide_eq_true_eq]
      exact append_ne_of_take_ne (("- Topics: ").data) tops.data
        (("## Content").data) 1 (by decide) (by decide)),
    List.dropWhile_cons,
    if_pos (by
      simp only [decide_eq_true_eq]
      exact append_ne_of_take_ne (("- Word Count: ").data) wc.data
        (("## Content").data) 1 (by decide) (by decide)),
    List.dropWhile_cons,
    if_pos (by
      simp only [decide_eq_true_eq]
      exact append_ne_of_take_ne (("- Weather: ").data) wea.data
        (("## Content").data) 1 (by decide) (by decide)),
    List.dropWhile_cons,
    if_pos (by
      simp only [decide_eq_true_eq]
      exact append_ne_of_take_ne (("- Location: ").data) loc.data
        (("## Content").data) 1 (by decide) (by decide)),
    List.dropWhile_cons, if_pos (by decide),
    List.dropWhile_cons, if_neg (by simp)]
  rw [List.tail_cons]
  rw [takeWhile_append_of_all _ (toLines content.data) _
    (fun x hx => by
      simp only [decide_eq_true_eq]
      intro hEq
      rw [hEq] at hx
      exact hcontent hx)]
  rw [List.takeWhile_cons, if_pos (by decide), List.takeWhile_cons, if_neg (by simp)]
  rw [show (toLines content.data ++ [[]] : List (List Char)) =
    toLines content.data ++ [([] : List Char)] from rfl]
  rw [List.dropLast_concat]
  exact joinLines_toLines content.data

/-! ### Support lemmas about `create_note` -/

theorem no_newline_cons_digit (c : Char) (l : List Char) (hc : c ≠ '\n') (h : '\n' ∉ l) :
    '\n' ∉ c :: l := by
  intro hm
  rcases List.mem_cons.mp hm with h1 | h1
  · exact hc h1.symm
  · exact h h1

theorem no_newline_pad2 (n : Nat) : '\n' ∉ pad2 n := by
  unfold pad2
  split
  · exact no_newline_cons_digit _ _ (by decide) (newline_not_mem_natDigits n)
  · exact newline_not_mem_natDigits n

theorem no_newline_pad4 (n : Nat) : '\n' ∉ pad4 n := by
  unfold pad4
  split
  · exact no_newline_cons_digit _ _ (by decide) (no_newline_cons_digit _ _ (by decide)
      (no_newline_cons_digit _ _ (by decide) (newline_not_mem_natDigits n)))
  · split
    · exact no_newline_cons_digit _ _ (by decide)
        (no_newline_cons_digit _ _ (by decide) (newline_not_mem_natDigits n))
    · split
      · exact no_newline_cons_digit _ _ (by decide) (newline_not_mem_natDigits n)
      · exact newline_not_mem_natDigits n

theorem no_newline_formatDate (d : Date) : '\n' ∉ (formatDate d).data := by
  show '\n' ∉ pad4 d.year ++ '-' :: (pad2 d.month ++ '-' :: pad2 d.day)
  intro hm
  rcases List.mem_append.mp hm with h | h
  · exact no_newline_pad4 _ h
  · rcases List.mem_cons.mp h with h | h
    · exact absurd h (by decide)
    · rcases List.mem_append.mp h with h | h
      · exact no_newline_pad2 _ h
      · rcases List.mem_cons.mp h with h | h
        · exact absurd h (by decide)
        · exact no_newline_pad2 _ h

theorem no_newline_formatTime (h m : Nat) : '\n' ∉ (formatTime h m).data := by
  show '\n' ∉ pad2 h ++ ':' :: pad2 m
  intro hm
  rcases List.mem_append.mp hm with h1 | h1
  · exact no_newline_pad2 _ h1
  · rcases List.mem_cons.mp h1 with h1 | h1
    · exact absurd h1 (by decide)
    · exact no_newline_pad2 _ h1

theorem digitsToNatCore_pad2 (n : Nat) : digitsToNatCore (pad2 n) = n := by
  unfold pad2
  split
  · have h0 : digitsToNatCore ('0' :: natDigits n) = digitsToNatCore (natDigits n) := rfl
    rw [h0, digitsToNatCore_natDigits]
  · exact digitsToNatCore_natDigits n

theorem pad2_injective (a b : Nat) (h : pad2 a = pad2 b) : a = b := by
  rw [← digitsToNatCore_pad2 a, ← digitsToNatCore_pad2 b, h]

theorem formatDate_day_ne (y m d1 d2 : Nat) (h : d1 ≠ d2) :
    formatDate ⟨y, m, d1⟩ ≠ formatDate ⟨y, m, d2⟩ := by
  intro hEq
  apply h
  apply pad2_injective
  have hdata : (formatDate ⟨y, m, d1⟩).data = (formatDate ⟨y, m, d2⟩).data := by
    rw [hEq]
  have h1 : pad4 y ++ '-' :: (pad2 m ++ '-' :: pad2 d1) =
      pad4 y ++ '-' :: (pad2 m ++ '-' :: pad2 d2) := hdata
  have h2 := List.append_cancel_left h1
  injection h2 with _ h3
  have h4 := List.append_cancel_left h3
  injection h4 with _ h5

theorem string_append_md_ne (s t : String) (h : s ≠ t) : s ++ ".md" ≠ t ++ ".md" := by
  intro hEq
  apply h
  have hdata : s.data ++ (".md").data = t.data ++ (".md").data := by
    rw [← String.data_append, ← String.data_append, hEq]
  have hst := List.append_cancel_right hdata
  cases s
  cases t
  exact congrArg String.mk hst

/-- Source `_get_related_entries` never looks at today's own file: the scanned keys
come from strictly smaller days of the same month, so writing today's note
does not change the scan's outcome. -/
theorem relatedScan_fsWrite (fs : DiaryFS) (d : Date) (c : String) (l : List Nat)
    (hpos : ∀ i ∈ l, 1 ≤ i) :
    relatedScan (fsWrite fs (formatDate d ++ ".md") c) d l = relatedScan fs d l := by
  induction l with
  | nil => rfl
  | cons i rest ih =>
    have hih := ih (fun j hj => hpos j (List.mem_cons_of_mem _ hj))
    have hi : 1 ≤ i := hpos i (List.mem_cons_self _ _)
    unfold relatedScan
    rw [hih]
    cases hrd : replaceDay d ((d.day : Int) - (i : Int)) with
    | error e => rfl
    | ok cd =>
      have hcd : cd.year = d.year ∧ cd.month = d.month ∧
          cd.day = ((d.day : Int) - (i : Int)).toNat ∧ 1 ≤ (d.day : Int) - (i : Int) := by
        unfold replaceDay at hrd
        split at hrd
        · next hcond =>
          injection hrd with h'
          rw [← h']
          exact ⟨rfl, rfl, rfl, hcond.1⟩
        · exact absurd hrd (by simp)
      have hdayne : cd.day ≠ d.day := by
        rw [hcd.2.2.1]
        omega
      have hkey : formatDate cd ++ ".md" ≠ formatDate d ++ ".md" := by
        apply string_append_md_ne
        have hcd' : cd = ⟨d.year, d.month, cd.day⟩ := by
          obtain ⟨y2, m2, d2⟩ := cd
          simp only at hcd
          simp only [Date.mk.injEq]
          exact ⟨hcd.1, hcd.2.1, trivial⟩
        rw [hcd']
        exact formatDate_day_ne d.year d.month cd.day d.day hdayne
      have hfs : fsWrite fs (formatDate d ++ ".md") c (formatDate cd ++ ".md") =
          fs (formatDate cd ++ ".md") := by
        unfold fsWrite
        rw [if_neg hkey]
      simp only [hfs]

/-- Source `_get_related_entries` succeeds whenever the day of month is at least 8
(all seven `replace(day=...)` calls stay in the valid 1..days-in-month range). -/
theorem relatedScan_ok (fs : DiaryFS) (d : Date) (l : List Nat)
    (h : ∀ i ∈ l, 1 ≤ (d.day : Int) - (i : Int) ∧
      (d.day : Int) - (i : Int) ≤ (daysInMonth d.year d.month : Int)) :
    ∃ rs, relatedScan fs d l = .ok rs := by
  induction l with
  | nil => exact ⟨[], rfl⟩
  | cons i rest ih =>
    obtain ⟨rs, hrs⟩ := ih (fun j hj => h j (List.mem_cons_of_mem _ hj))
    have hi := h i (List.mem_cons_self _ _)
    have hrd : replaceDay d ((d.day : Int) - (i : Int)) =
        .ok ⟨d.year, d.month, ((d.day : Int) - (i : Int)).toNat⟩ := by
      unfold replaceDay
      rw [if_pos hi]
    by_cases hex : (fs (formatDate ⟨d.year, d.month, ((d.day : Int) - (i : Int)).toNat⟩ ++
        ".md")).isSome
    · refine ⟨("- [[" ++ formatDate ⟨d.year, d.month, ((d.day : Int) - (i : Int)).toNat⟩ ++
        "]]") :: rs, ?_⟩
      unfold relatedScan
      rw [hrd, hrs]
      exact if_pos hex
    · refine ⟨rs, ?_⟩
      unfold relatedScan
      rw [hrd, hrs]
      exact if_neg hex

theorem getRelatedEntries_ok (fs : DiaryFS) (d : Date) (h8 : 8 ≤ d.day)
    (hdim : d.day ≤ daysInMonth d.year d.month) :
    ∃ rel, getRelatedEntries fs d = .ok rel := by
  obtain ⟨rs, hrs⟩ := relatedScan_ok fs d [1, 2, 3, 4, 5, 6, 7] (by
    intro i hi
    fin_cases hi <;> constructor <;> omega)
  exact ⟨_, by rw [getRelatedEntries, hrs]; rfl⟩

/-- Source `create_note` succeeds on days 8..end-of-month (no recording), writing the
rendered note under today's date key. -/
theorem create_note_ok (fs : DiaryFS) (now : DateTime) (e : Entry)
    (h8 : 8 ≤ now.date.day)
    (hdim : now.date.day ≤ daysInMonth now.date.year now.date.month) :
    ∃ rel, getRelatedEntries fs now.date = .ok rel ∧
      create_note fs now e none true 0 =
        .ok (fsWrite fs (formatDate now.date ++ ".md")
          (renderedNote now e rel ("No audio recording")),
          formatDate now.date ++ ".md") := by
  obtain ⟨rel, hrel⟩ := getRelatedEntries_ok fs now.date h8 hdim
  refine ⟨rel, hrel, ?_⟩
  unfold create_note
  rw [hrel]

/-! ### Claims -/

/-- Claim C1: the related-entries lookup in `createNote` is claimed to examine
the seven true calendar days D-1..D-7, working across month boundaries; on
D = 2024-03-01 with a note for 2024-02-27 present, the code instead computes
`current_date.replace(day=1-1)` and raises `ValueError`, linking nothing —
the claim is right about the intent and the code is wrong. -/
theorem C1_related_entries_month_boundary_bug :
    getRelatedEntries fsFeb ⟨2024, 3, 1⟩ =
      .error ("ValueError: day is out of range for month") := by
  rfl

/-- Claim C2 counterexample: with an audio artifact present and a failing
copy, `create_note` propagates the I/O error before the note file is written,
so the note is not "still written" as claimed (evaluated at 2024-03-15 on an
empty vault). -/
theorem C2_copy_failure_aborts_note_cex :
    create_note emptyFS dtMar15 emptyEntry (some (".wav")) false 0 =
      .error ("IOError: audio copy failed") := by
  rfl

/-- Claim C2 (amended): when the audio copy of a present artifact fails with
an I/O error, `create_note` always raises (either the related-entries
`ValueError` or the copy error) and never returns a written note. -/
theorem C2_copy_failure_always_fatal (fs : DiaryFS) (now : DateTime) (e : Entry)
    (suffix : String) (epochMillis : Nat) :
    ∃ msg, create_note fs now e (some suffix) false epochMillis = .error msg := by
  unfold create_note
  cases h : getRelatedEntries fs now.date with
  | error e1 => exact ⟨e1, rfl⟩
  | ok rel => exact ⟨"IOError: audio copy failed", rfl⟩

/-- Claim C3 counterexample: a DATE entity whose fuzzy parse fails is dropped
from the result entirely — the mention does not survive with an absent
resolution, the `dates` list is simply empty. -/
theorem C3_unparsable_mention_dropped_cex :
    detectDates (fun _ => (none : Option Nat)) [⟨"someday", "DATE"⟩] = [] := by
  rfl

/-- Claim C3 (amended): `dates` holds exactly the DATE-labelled entity
mentions whose fuzzy parse succeeded, paired with their parsed values;
mentions whose parse fails are discarded entirely. -/
theorem C3_dates_characterization {D : Type} (parseO : String → Option D)
    (ents : List Ent) (m : String) (d : D) :
    (m, d) ∈ detectDates parseO ents ↔
      ∃ e ∈ ents, e.label = "DATE" ∧ e.text = m ∧ parseO m = some d := by
  unfold detectDates
  rw [List.mem_filterMap]
  constructor
  · rintro ⟨e, he, hf⟩
    split at hf
    · next hl =>
      rw [Option.map_eq_some'] at hf
      obtain ⟨dd, hdd, hpair⟩ := hf
      rw [Prod.mk.injEq] at hpair
      obtain ⟨htext, hd⟩ := hpair
      exact ⟨e, he, hl, htext, by rw [← htext, hdd, hd]⟩
    · exact absurd hf (by simp)
  · rintro ⟨e, he, hl, htext, hp⟩
    refine ⟨e, he, ?_⟩
    rw [if_pos hl, htext, hp]
    rfl

/-- Claim C4 counterexample: a noun chunk containing one stop-word and one
non-stop-word ("the dog") is excluded by the code (which excludes a chunk as
soon as *any* of its words is a stop-word), while the claim requires it to be
included (its words are not *all* stop-words). -/
theorem C4_chunk_with_any_stopword_excluded_cex :
    identifyTopics ["the"] [⟨"the dog", ["the", "dog"]⟩] [] = [] := by
  decide

/-- Claim C4 (amended): topic extraction includes exactly the noun chunks
*none* of whose words is a stop-word, plus the PERSON/ORG/GPE/EVENT
entities, with no exact-string duplicates. -/
theorem C4_topics_characterization (stopWords : List String) (chunks : List Chunk)
    (ents : List Ent) :
    (∀ x, x ∈ identifyTopics stopWords chunks ents ↔
      ((∃ c ∈ chunks, (∀ w ∈ c.tokenTexts, pyToLower w ∉ stopWords) ∧
        c.text = x) ∨
       (∃ e ∈ ents, e.label ∈ (["PERSON", "ORG", "GPE", "EVENT"] : List String) ∧
        e.text = x))) ∧
    (identifyTopics stopWords chunks ents).Nodup := by
  constructor
  · intro x
    unfold identifyTopics
    rw [List.mem_dedup, List.mem_append]
    simp only [List.mem_map, List.mem_filter, Bool.not_eq_true', List.any_eq_false,
      decide_eq_true_eq, decide_eq_false_iff_not]
    constructor
    · rintro (⟨c, ⟨hc, hall⟩, hx⟩ | ⟨e, ⟨he, hlbl⟩, hx⟩)
      · exact Or.inl ⟨c, hc, hall, hx⟩
      · exact Or.inr ⟨e, he, hlbl, hx⟩
    · rintro (⟨c, hc, hall, hx⟩ | ⟨e, he, hlbl, hx⟩)
      · exact Or.inl ⟨c, ⟨hc, hall⟩, hx⟩
      · exact Or.inr ⟨e, ⟨he, hlbl⟩, hx⟩
  · exact List.nodup_dedup _

/-- Claim C5 counterexample: on 2024-03-01 (first of a month) both successive
`create_note` calls raise `ValueError` in the related-entries scan before
anything is written, so the day ends with zero notes instead of exactly
one. -/
theorem C5_month_start_no_note_cex :
    create_note emptyFS dtMar1 entryFirst none true 0 =
      .error ("ValueError: day is out of range for month") ∧
    create_note emptyFS dtMar1 entrySecond none true 0 =
      .error ("ValueError: day is out of range for month") := by
  exact ⟨rfl, rfl⟩

/-- Claim C5 (amended): on any calendar day of month ≥ 8 (where the
related-entries scan does not raise), two successive `create_note` calls
both write under today's single date key, and the final diary folder holds
at that key exactly the rendered content of the second call — the first
call's content is fully replaced, not appended to. -/
theorem C5_same_day_overwrite (fs : DiaryFS) (now : DateTime) (e1 e2 : Entry)
    (h8 : 8 ≤ now.date.day)
    (hdim : now.date.day ≤ daysInMonth now.date.year now.date.month) :
    ∃ fs1 fs2 rel,
      getRelatedEntries fs now.date = .ok rel ∧
      create_note fs now e1 none true 0 = .ok (fs1, formatDate now.date ++ ".md") ∧
      create_note fs1 now e2 none true 0 = .ok (fs2, formatDate now.date ++ ".md") ∧
      fs2 (formatDate now.date ++ ".md") =
        some (renderedNote now e2 rel ("No audio recording")) := by
  obtain ⟨rel, hrel, hcn1⟩ := create_note_ok fs now e1 h8 hdim
  have hrel1 : getRelatedEntries (fsWrite fs (formatDate now.date ++ ".md")
      (renderedNote now e1 rel ("No audio recording"))) now.date = .ok rel := by
    unfold getRelatedEntries at hrel ⊢
    rw [relatedScan_fsWrite fs now.date _ [1, 2, 3, 4, 5, 6, 7]
      (by intro i hi; fin_cases hi <;> omega)]
    exact hrel
  refine ⟨fsWrite fs (formatDate now.date ++ ".md")
      (renderedNote now e1 rel ("No audio recording")),
    fsWrite (fsWrite fs (formatDate now.date ++ ".md")
      (renderedNote now e1 rel ("No audio recording")))
      (formatDate now.date ++ ".md") (renderedNote now e2 rel ("No audio recording")),
    rel, hrel, hcn1, ?_, ?_⟩
  · unfold create_note
    rw [hrel1]
  · show fsWrite _ (formatDate now.date ++ ".md") _ (formatDate now.date ++ ".md") = _
    unfold fsWrite
    rw [if_pos rfl]

/-- Claim C5 witness at a concrete mid-month day and two concrete entries. -/
theorem C5_same_day_overwrite_witness :
    ∃ fs1 fs2 rel,
      getRelatedEntries emptyFS dtMar15.date = .ok rel ∧
      create_note emptyFS dtMar15 entryFirst none true 0 =
        .ok (fs1, formatDate dtMar15.date ++ ".md") ∧
      create_note fs1 dtMar15 entrySecond none true 0 =
        .ok (fs2, formatDate dtMar15.date ++ ".md") ∧
      fs2 (formatDate dtMar15.date ++ ".md") =
        some (renderedNote dtMar15 entrySecond rel ("No audio recording")) :=
  C5_same_day_overwrite emptyFS dtMar15 entryFirst entrySecond (by decide) (by decide)

theorem countP_add_countP_le {α : Type} (l : List α) (p q : α → Bool)
    (h : ∀ x, p x = true → q x = true → False) :
    l.countP p + l.countP q ≤ l.length := by
  induction l with
  | nil => simp
  | cons a t ih =>
    rw [List.countP_cons, List.countP_cons, List.length_cons]
    by_cases hp : p a = true
    · have hq : q a = false := by
        cases hqv : q a
        · rfl
        · exact (h a hp hqv).elim
      simp [hp, hq]
      omega
    · rw [Bool.not_eq_true] at hp
      by_cases hqv : q a = true
      · simp [hp, hqv]
        omega
      · rw [Bool.not_eq_true] at hqv
        simp [hp, hqv]
        omega

theorem positive_negative_disjoint (w : String) (h1 : w ∈ positiveWords)
    (h2 : w ∈ negativeWords) : False := by
  fin_cases h1 <;> exact absurd h2 (by decide)

theorem posCount_add_negCount_le (text : String) :
    positiveCount text + negativeCount text ≤ (emotionTokens text).length := by
  unfold positiveCount negativeCount
  exact countP_add_countP_le _ _ _ (fun x hp hq =>
    positive_negative_disjoint x (of_decide_eq_true hp) (of_decide_eq_true hq))

/-- Claim C6: emotion scores are each in [0,1] and sum exactly to 1; when the
token list is nonempty the positive and negative scores are the lexicon
counts divided by the token count, and a zero-word input yields exactly
(0, 0, 1). -/
theorem C6_emotion_scores (text : String) :
    (detectEmotion text).positive + (detectEmotion text).negative +
      (detectEmotion text).neutral = 1 ∧
    (0 ≤ (detectEmotion text).positive ∧ (detectEmotion text).positive ≤ 1) ∧
    (0 ≤ (detectEmotion text).negative ∧ (detectEmotion text).negative ≤ 1) ∧
    (0 ≤ (detectEmotion text).neutral ∧ (detectEmotion text).neutral ≤ 1) ∧
    ((emotionTokens text).length ≠ 0 →
      (detectEmotion text).positive =
        (positiveCount text : ℚ) / ((emotionTokens text).length : ℚ) ∧
      (detectEmotion text).negative =
        (negativeCount text : ℚ) / ((emotionTokens text).length : ℚ)) ∧
    (emotionTokens text = [] → detectEmotion text = ⟨0, 0, 1⟩) := by
  unfold detectEmotion
  by_cases h0 : (emotionTokens text).length = 0
  · rw [if_pos h0]
    refine ⟨by norm_num, by norm_num, by norm_num, by norm_num, ?_, fun _ => rfl⟩
    intro hne
    exact absurd h0 hne
  · rw [if_neg h0]
    have hTpos : 0 < ((emotionTokens text).length : ℚ) := by
      have := Nat.pos_of_ne_zero h0
      exact_mod_cast this
    have hTne : ((emotionTokens text).length : ℚ) ≠ 0 := ne_of_gt hTpos
    have hple : (positiveCount text : ℚ) ≤ ((emotionTokens text).length : ℚ) := by
      have := List.countP_le_length (l := emotionTokens text)
        (p := fun w => decide (w ∈ positiveWords))
      exact_mod_cast this
    have hnle : (negativeCount text : ℚ) ≤ ((emotionTokens text).length : ℚ) := by
      have := List.countP_le_length (l := emotionTokens text)
        (p := fun w => decide (w ∈ negativeWords))
      exact_mod_cast this
    have hpn : (positiveCount text : ℚ) + (negativeCount text : ℚ) ≤
        ((emotionTokens text).length : ℚ) := by
      have := posCount_add_negCount_le text
      exact_mod_cast this
    have hp0 : (0 : ℚ) ≤ (positiveCount text : ℚ) := by positivity
    have hn0 : (0 : ℚ) ≤ (negativeCount text : ℚ) := by positivity
    refine ⟨?_, ⟨?_, ?_⟩, ⟨?_, ?_⟩, ⟨?_, ?_⟩, fun _ => ⟨rfl, rfl⟩, ?_⟩
    · show (positiveCount text : ℚ) / _ + (negativeCount text : ℚ) / _ + _ / _ = 1
      field_simp
    · exact div_nonneg hp0 (le_of_lt hTpos)
    · exact (div_le_one hTpos).mpr hple
    · exact div_nonneg hn0 (le_of_lt hTpos)
    · exact (div_le_one hTpos).mpr hnle
    · apply div_nonneg _ (le_of_lt hTpos)
      linarith
    · apply (div_le_one hTpos).mpr
      linarith
    · intro hemp
      exact absurd (by rw [hemp]; rfl) h0

/-- Claim C6 witness: the zero-word case and the general invariants evaluated
at concrete inputs. -/
theorem C6_emotion_scores_witness :
    detectEmotion "" = ⟨0, 0, 1⟩ ∧
    (detectEmotion "I am happy today").positive +
      (detectEmotion "I am happy today").negative +
      (detectEmotion "I am happy today").neutral = 1 :=
  ⟨(C6_emotion_scores "").2.2.2.2.2
      (by simp [emotionTokens, pySplit, pyToLower, wordsOf]),
    (C6_emotion_scores "I am happy today").1⟩

theorem buildParagraphs_flatten (l : List String) : ∀ acc : List String,
    (buildParagraphs acc l).flatten = acc ++ l := by
  induction l with
  | nil =>
    intro acc
    unfold buildParagraphs
    split
    · next hemp =>
      rw [List.isEmpty_iff] at hemp
      simp [hemp]
    · simp
  | cons s rest ih =>
    intro acc
    unfold buildParagraphs
    split
    · simp [ih []]
    · simp [ih (acc ++ [s])]

theorem buildParagraphs_length (l : List String) : ∀ acc : List String,
    acc.length ≤ 2 →
    (buildParagraphs acc l).length = (acc.length + l.length + 2) / 3 := by
  induction l with
  | nil =>
    intro acc hacc
    unfold buildParagraphs
    split
    · next hemp =>
      rw [List.isEmpty_iff] at hemp
      simp [hemp]
    · next hemp =>
      rw [List.isEmpty_iff] at hemp
      have h1 : 1 ≤ acc.length := List.length_pos.mpr hemp
      simp only [List.length_singleton, List.length_nil]
      omega
  | cons s rest ih =>
    intro acc hacc
    unfold buildParagraphs
    split
    · next hge =>
      simp only [List.length_append, List.length_singleton] at hge
      rw [List.length_cons, ih [] (by simp)]
      simp only [List.length_nil, List.length_cons]
      omega
    · next hge =>
      simp only [List.length_append, List.length_singleton] at hge
      rw [ih (acc ++ [s]) (by simp; omega)]
      simp only [List.length_append, List.length_singleton, List.length_nil,
        List.length_cons]
      omega

theorem buildParagraphs_sizes (l : List String) : ∀ acc : List String,
    acc.length ≤ 2 →
    ∀ p ∈ buildParagraphs acc l, 1 ≤ p.length ∧ p.length ≤ 3 := by
  induction l with
  | nil =>
    intro acc hacc p hp
    unfold buildParagraphs at hp
    split at hp
    · simp at hp
    · next hemp =>
      rw [List.isEmpty_iff] at hemp
      rw [List.mem_singleton] at hp
      subst hp
      exact ⟨List.length_pos.mpr hemp, by omega⟩
  | cons s rest ih =>
    intro acc hacc p hp
    unfold buildParagraphs at hp
    split at hp
    · next hge =>
      simp only [List.length_append, List.length_singleton] at hge
      rcases List.mem_cons.mp hp with h | h
      · subst h
        simp only [List.length_append, List.length_singleton]
        omega
      · exact ih [] (by simp) p h
    · next hge =>
      simp only [List.length_append, List.length_singleton] at hge
      exact ih (acc ++ [s]) (by simp; omega) p hp

theorem buildParagraphs_dropLast (l : List String) : ∀ acc : List String,
    acc.length ≤ 2 →
    ∀ p ∈ (buildParagraphs acc l).dropLast, p.length = 3 := by
  induction l with
  | nil =>
    intro acc hacc p hp
    unfold buildParagraphs at hp
    split at hp
    · simp at hp
    · simp at hp
  | cons s rest ih =>
    intro acc hacc p hp
    unfold buildParagraphs at hp
    split at hp
    · next hge =>
      simp only [List.length_append, List.length_singleton] at hge
      cases hbp : buildParagraphs [] rest with
      | nil =>
        rw [hbp] at hp
        simp at hp
      | cons q qs =>
        rw [hbp, List.dropLast_cons₂] at hp
        rcases List.mem_cons.mp hp with h | h
        · subst h
          simp only [List.length_append, List.length_singleton]
          omega
        · exact ih [] (by simp) p (hbp ▸ h)
    · next hge =>
      simp only [List.length_append, List.length_singleton] at hge
      exact ih (acc ++ [s]) (by simp; omega) p hp

/-- Claim C7: over N sentences the paragraph loop yields exactly ⌈N/3⌉
paragraphs, each of 1..3 sentences, all non-final paragraphs of exactly 3,
with the sentences in original order; zero sentences yield the empty
sequence. -/
theorem C7_segmentation (sentences : List String) :
    (buildParagraphs [] sentences).length = (sentences.length + 2) / 3 ∧
    (buildParagraphs [] sentences).flatten = sentences ∧
    (∀ p ∈ buildParagraphs [] sentences, 1 ≤ p.length ∧ p.length ≤ 3) ∧
    (∀ p ∈ (buildParagraphs [] sentences).dropLast, p.length = 3) ∧
    (sentences = [] → buildParagraphs [] sentences = []) ∧
    paragraphsOf sentences =
      (buildParagraphs [] sentences).map (fun g => String.intercalate (" ") g) := by
  refine ⟨?_, ?_, ?_, ?_, ?_, rfl⟩
  · rw [buildParagraphs_length sentences [] (by simp)]
    simp
  · simpa using buildParagraphs_flatten sentences []
  · exact buildParagraphs_sizes sentences [] (by simp)
  · exact buildParagraphs_dropLast sentences [] (by simp)
  · intro h
    subst h
    rfl

/-- Claim C7 witness: the segmentation properties evaluated on a concrete
five-sentence input. -/
theorem C7_segmentation_witness :
    buildParagraphs [] ["a.", "b.", "c.", "d.", "e."] = [["a.", "b.", "c."], ["d.", "e."]] ∧
    (buildParagraphs [] ["a.", "b.", "c.", "d.", "e."]).length = 2 ∧
    (∀ p ∈ (buildParagraphs [] ["a.", "b.", "c.", "d.", "e."]).dropLast, p.length = 3) :=
  ⟨by decide, by decide, (C7_segmentation ["a.", "b.", "c.", "d.", "e."]).2.2.2.1⟩

/-- Claim C8 counterexample: when the entry's content itself contains a
`## Related Entries` line, parsing the written note back does not recover the
content (the parse returns the empty text instead), so the round-trip fails
for that enriched entry. -/
theorem C8_content_marker_roundtrip_fails_cex :
    (writtenNote emptyFS dtMar15 entryWithMarkerContent).map parseContentField =
      some [] ∧
    entryWithMarkerContent.text = some ("x\n## Related Entries\ny") := by
  exact ⟨rfl, rfl⟩

/-- Claim C8 (amended): for entries whose duration/mood strings and
comma-joined topics contain no newline and whose content contains no
`## Related Entries` line of its own, rendered on a day of month ≥ 8,
parsing the written note back recovers the literal content, the comma-joined
topics string, and the word count unchanged. -/
theorem C8_roundtrip_default_template (fs : DiaryFS) (now : DateTime) (e : Entry)
    (ts : List String) (wcount : Nat) (c : String)
    (h8 : 8 ≤ now.date.day)
    (hdim : now.date.day ≤ daysInMonth now.date.year now.date.month)
    (htopics : e.topics = some ts) (hwc : e.word_count = some wcount)
    (htext : e.text = some c)
    (hts : '\n' ∉ (String.intercalate (", ") ts).data)
    (hdur : '\n' ∉ (e.duration.getD ("Unknown")).data)
    (hmood : '\n' ∉ (e.mood.getD ("Neutral")).data)
    (hcontent : ("## Related Entries").data ∉ toLines c.data) :
    ∃ note, writtenNote fs now e = some note ∧
      parseTopicsField note = some (String.intercalate (", ") ts).data ∧
      parseWordCountField note = some wcount ∧
      parseContentField note = c.data := by
  obtain ⟨rel, hrel, hcn⟩ := create_note_ok fs now e h8 hdim
  have hwn : writtenNote fs now e =
      some (renderedNote now e rel ("No audio recording")) := by
    unfold writtenNote
    rw [hcn]
    show fsWrite fs (formatDate now.date ++ ".md")
      (renderedNote now e rel ("No audio recording")) (formatDate now.date ++ ".md") = _
    unfold fsWrite
    rw [if_pos rfl]
  have hr : renderedNote now e rel ("No audio recording") =
      defaultNote (formatDate now.date) (formatTime now.hour now.minute)
        (e.duration.getD ("Unknown")) (e.mood.getD ("Neutral"))
        (String.intercalate (", ") ts) (⟨natDigits wcount⟩ : String)
        getWeather getLocation c rel ("No audio recording") := by
    unfold renderedNote
    rw [htopics, hwc, htext]
    rfl
  refine ⟨renderedNote now e rel ("No audio recording"), hwn, ?_, ?_, ?_⟩
  · rw [hr]
    exact parseTopicsField_defaultNote _ _ _ _ _ _ _ _ _ _ _
      (no_newline_formatDate _) (no_newline_formatTime _ _) hdur hmood hts
      (newline_not_mem_natDigits wcount) (by decide) (by decide)
  · rw [hr]
    exact parseWordCountField_defaultNote _ _ _ _ _ _ _ _ _ _ wcount
      (no_newline_formatDate _) (no_newline_formatTime _ _) hdur hmood hts
      (by decide) (by decide)
  · rw [hr]
    exact parseContentField_defaultNote _ _ _ _ _ _ _ _ _ _ _
      (no_newline_formatDate _) (no_newline_formatTime _ _) hdur hmood hts
      (newline_not_mem_natDigits wcount) (by decide) (by decide) hcontent

/-- Claim C8 witness: the round-trip evaluated at a concrete entry on a
concrete mid-month day. -/
theorem C8_roundtrip_witness :
    ∃ note, writtenNote emptyFS dtMar15 entryW = some note ∧
      parseTopicsField note = some (String.intercalate (", ") ["alpha", "beta"]).data ∧
      parseWordCountField note = some 7 ∧
      parseContentField note = ("Hello world.").data :=
  C8_roundtrip_default_template emptyFS dtMar15 entryW ["alpha", "beta"] 7
    ("Hello world.") (by decide) (by decide) rfl rfl rfl (by decide) (by decide)
    (by decide) (by decide)

theorem mapM_capSentence_ok (l : List String) (h : ∀ s ∈ l, s ≠ "") :
    ∃ rs, l.mapM capSentence = Except.ok rs := by
  induction l with
  | nil => exact ⟨[], rfl⟩
  | cons s rest ih =>
    obtain ⟨rs, hrs⟩ := ih (fun x hx => h x (List.mem_cons_of_mem _ hx))
    have hs : s ≠ "" := h s (List.mem_cons_self _ _)
    obtain ⟨b, hb⟩ : ∃ b, capSentence s = .ok b := by
      cases hd : s.data with
      | nil =>
        exfalso
        apply hs
        cases s
        simp only at hd
        rw [hd]
      | cons c cs =>
        refine ⟨⟨c.toUpper :: cs⟩, ?_⟩
        unfold capSentence
        rw [hd]
    refine ⟨b :: rs, ?_⟩
    rw [List.mapM_cons, hb, hrs]
    rfl

/-- Claim C9: the text cleaner never raises on present input — under the
sentence tokenizer's contract that it yields no empty sentences, `_clean_text`
always returns a result; and cleaning the empty string yields the empty
string (the tokenizer returns no sentences for it).  The segmenter
(`buildParagraphs`), the date/topic annotators and the emotion scorer are
total functions of the embedding with the fuzzy-parse failure modelled as a
caught `none`, so the cleaner's indexing `s[0]` is the only raise site. -/
theorem C9_lower_layers_degrade (tok : String → List String) (text : String)
    (htok : ∀ s ∈ tok (preCleaned text), s ≠ "") :
    (∃ r, cleanText tok text = .ok r) ∧
    (tok (preCleaned "") = [] → cleanText tok "" = .ok "") := by
  constructor
  · obtain ⟨rs, hrs⟩ := mapM_capSentence_ok (tok (preCleaned text)) htok
    refine ⟨String.intercalate (" ") rs, ?_⟩
    unfold cleanText
    rw [hrs]
    rfl
  · intro h0
    unfold cleanText
    rw [h0]
    rfl

/-- Claim C9 witness: the cleaner evaluated with a concrete (empty-output)
tokenizer on the empty string. -/
theorem C9_lower_layers_degrade_witness :
    (∃ r, cleanText (fun _ => ([] : List String)) "" = .ok r) ∧
    ((fun _ => ([] : List String)) (preCleaned "") = ([] : List String) →
      cleanText (fun _ => ([] : List String)) "" = .ok "") :=
  C9_lower_layers_degrade (fun _ => []) "" (by simp)

/-- Claim C10 counterexample: a call with every key missing on the first of a
month raises `ValueError` in the related-entries scan, so the note is not
"rendered and written without error" for every such call. -/
theorem C10_missing_keys_month_start_cex :
    create_note emptyFS dtMar1 emptyEntry none true 0 =
      .error ("ValueError: day is out of range for month") := by
  rfl

/-- Claim C10 (amended): on days of month ≥ 8 (where the related-entries scan
does not raise), a call whose record is missing all of duration, mood,
topics, word_count and text still succeeds, and writes exactly what it would
write for a record carrying the defaults "Unknown", "Neutral", `[]`, `0`,
`""`. -/
theorem C10_missing_keys_defaults (fs : DiaryFS) (now : DateTime)
    (h8 : 8 ≤ now.date.day)
    (hdim : now.date.day ≤ daysInMonth now.date.year now.date.month) :
    (∃ fsOut, create_note fs now emptyEntry none true 0 =
      .ok (fsOut, formatDate now.date ++ ".md")) ∧
    create_note fs now emptyEntry none true 0 =
      create_note fs now
        ⟨some ("Unknown"), some ("Neutral"), some [], some 0, some ("")⟩ none true 0 := by
  constructor
  · obtain ⟨rel, hrel, hcn⟩ := create_note_ok fs now emptyEntry h8 hdim
    exact ⟨_, hcn⟩
  · rfl

/-- Claim C10 witness: the defaults behaviour evaluated at a concrete
mid-month day on an empty vault. -/
theorem C10_missing_keys_defaults_witness :
    (∃ fsOut, create_note emptyFS dtMar15 emptyEntry none true 0 =
      .ok (fsOut, formatDate dtMar15.date ++ ".md")) ∧
    create_note emptyFS dtMar15 emptyEntry none true 0 =
      create_note emptyFS dtMar15
        ⟨some ("Unknown"), some ("Neutral"), some [], some 0, some ("")⟩ none true 0 :=
  C10_missing_keys_defaults emptyFS dtMar15 (by decide) (by decide)

end TTSObsidian
